import Mathlib

/-!
Verification of the `steamcmd` Workshop-download pipeline (`steamcmd/base.py`,
class `ServerBase`).  The definitions below are a shallow embedding of the
Python source: network I/O is abstracted as oracle functions supplying the
HTTP responses, the local filesystem as a partial map from destination file
name to the observed size/mtime pair, and machine effects (log lines, sleeps)
are dropped or recorded as ghost fields.
-/

/-- An HTTP response as seen through `requests`: status code and raw body. -/
structure HttpResponse where
  status_code : Nat
  content : String
deriving Repr, DecidableEq

/-- One element of `response.collectiondetails` in the collection-expansion
reply: the list of the `publishedfileid` values of its `children`. -/
structure CollectionDetail where
  children : List String
deriving Repr, DecidableEq

/-- The parsed JSON of a `GetCollectionDetails` reply
(path `response.collectiondetails`). -/
structure CollectionsResponse where
  collectiondetails : List CollectionDetail
deriving Repr, DecidableEq

/-- One element of `response.publishedfiledetails` in the
`GetPublishedFileDetails` reply, restricted to the fields the code reads. -/
structure PublishedFileDetail where
  publishedfileid : String
  filename : String
  file_size : Nat
  time_updated : Int
  file_url : String
deriving Repr, DecidableEq

/-- The per-file record `_get_steam_file_info` builds from a response entry. -/
structure FileDetails where
  file_name : String
  file_size : Nat
  time_updated : Int
  file_url : String
deriving Repr, DecidableEq

/-- The `stat()` observations `download_collections` makes of a local file. -/
structure LocalFile where
  st_size : Nat
  st_mtime : Int
deriving Repr, DecidableEq

/-- A collection-expansion HTTP response together with its parsed JSON. -/
structure CollHttpResponse where
  status_code : Nat
  content : String
  json : CollectionsResponse
deriving Repr, DecidableEq

/-- A file-details HTTP response together with its parsed JSON. -/
structure FileHttpResponse where
  status_code : Nat
  content : String
  json : List PublishedFileDetail
deriving Repr, DecidableEq

/-- A value in a form-encoded POST body: the code sends `str` values for the
collection call but a plain `int` for `itemcount` in the file-details call. -/
inductive FormValue where
  | str (s : String)
  | int (n : Nat)
deriving Repr, DecidableEq

/-- Split a character list at every occurrence of `c` (the pieces do not
contain `c`; `n + 1` pieces for `n` separators, like `str.split`). -/
def splitOnChar (c : Char) : List Char → List (List Char)
  | [] => [[]]
  | x :: xs =>
    if x = c then [] :: splitOnChar c xs
    else
      match splitOnChar c xs with
      | [] => [[x]]
      | h :: t => (x :: h) :: t

/-- `pathlib.Path(file_name).suffix`: the part of the final path component
from its last dot onward, empty when there is no dot, when the only dot is
the leading character, or when the name ends in a dot. -/
def pySuffix (file_name : String) : String :=
  let name := (splitOnChar '/' file_name.data).getLastD file_name.data
  let parts := splitOnChar '.' name
  if parts.length ≤ 1 then ""
  else if parts.getLastD [] = [] then ""
  else if parts.length = 2 ∧ parts.headD [] = [] then ""
  else String.mk ('.' :: parts.getLastD [])

/-- Destination file name `f"{k}{Path(details['file_name']).suffix}"` used by
`download_collections` (relative to the install directory). -/
def dest_path (k : String) (details : FileDetails) : String :=
  k ++ pySuffix details.file_name

/-- The skip predicate of `download_collections` (base.py lines 173-176):
`file_path.stat().st_size == details["file_size"] or
 file_path.stat().st_mtime > details["time_updated"]`. -/
def skipFile (lf : LocalFile) (details : FileDetails) : Bool :=
  lf.st_size == details.file_size || decide (details.time_updated < lf.st_mtime)

/-- Whether the per-file loop of `download_collections` reaches the
`self._download_file(...)` call for entry `(k, details)` given the current
filesystem: true when the destination does not exist or the skip predicate
fails. -/
def planned (fs : String → Option LocalFile) (k : String) (details : FileDetails) : Bool :=
  match fs (dest_path k details) with
  | some lf => !(skipFile lf details)
  | none => true

/-- Result of the per-file loop of `download_collections`.  `fs` is the
filesystem after the loop; `downloaded` the entries fetched and written;
`attempted` the entries for which a content GET was issued (ghost field used
to state which files the bulk fetcher was asked for); `requests` the number of
content GETs issued; `error` is `some (status, body)` when
`_download_file`'s `raise_for_status()` raised, aborting the loop. -/
structure LoopResult where
  fs : String → Option LocalFile
  downloaded : List (String × FileDetails)
  attempted : List (String × FileDetails)
  requests : Nat
  error : Option (Nat × String)

/-- Writing a downloaded file: point update of the observed filesystem. -/
def updateFS (fs : String → Option LocalFile) (p : String) (lf : LocalFile) :
    String → Option LocalFile :=
  fun q => if q = p then some lf else fs q

/-- The per-file loop of `download_collections` (base.py lines 166-183)
together with `_download_file` (lines 185-196).  `g` maps a `file_url` to the
response of the streaming GET; `w` gives the size/mtime the written file would
observe after a successful download.  `raise_for_status()` raises exactly for
status codes in [400, 600). -/
def download_collections_loop (g : String → HttpResponse)
    (w : String → FileDetails → LocalFile) :
    (String → Option LocalFile) → List (String × FileDetails) → LoopResult
  | fs, [] => ⟨fs, [], [], 0, none⟩
  | fs, (k, details) :: rest =>
    if planned fs k details then
      if 400 ≤ (g details.file_url).status_code ∧ (g details.file_url).status_code < 600 then
        ⟨fs, [], [(k, details)], 1,
          some ((g details.file_url).status_code, (g details.file_url).content)⟩
      else
        let r := download_collections_loop g w
          (updateFS fs (dest_path k details) (w k details)) rest
        ⟨r.fs, (k, details) :: r.downloaded, (k, details) :: r.attempted,
          r.requests + 1, r.error⟩
    else
      download_collections_loop g w fs rest

/-- One step of the dedup accumulation in `_get_collection_file_ids`:
`if collection not in resp: resp.append(collection)`. -/
def dedupStep (resp : List String) (collection : String) : List String :=
  if collection ∈ resp then resp else resp ++ [collection]

/-- The JSON-walking part of `_get_collection_file_ids` (base.py lines
225-234): iterate `collectiondetails`, then each result's `children`,
appending each child's `publishedfileid` when not already present. -/
def collectFileIds (collections : CollectionsResponse) : List String :=
  collections.collectiondetails.foldl
    (fun resp result => result.children.foldl dedupStep resp) []

/-- The record `_get_steam_file_info` stores for one response entry. -/
def toFileDetails (e : PublishedFileDetail) : FileDetails :=
  ⟨e.filename, e.file_size, e.time_updated, e.file_url⟩

/-- The accumulation loop of `_get_steam_file_info` (base.py lines 261-269):
`if file_details["publishedfileid"] not in result: result[...] = {...}`,
with the Python dict modelled as an insertion-ordered association list. -/
def buildFileInfoAux (acc : List (String × FileDetails)) :
    List PublishedFileDetail → List (String × FileDetails)
  | [] => acc
  | e :: rest =>
    if acc.any (fun p => p.1 == e.publishedfileid) then buildFileInfoAux acc rest
    else buildFileInfoAux (acc ++ [(e.publishedfileid, toFileDetails e)]) rest

/-- The result dictionary of `_get_steam_file_info` built from
`response.publishedfiledetails`. -/
def buildFileInfo (entries : List PublishedFileDetail) : List (String × FileDetails) :=
  buildFileInfoAux [] entries

/-- The retry loop shared verbatim by `_get_collection_file_ids` (lines
212-216) and `_get_steam_file_info` (lines 250-254):
`for _ in range(retries): resp = requests.post(...); if 200: break; sleep`.
Returns how many requests were issued and the last response received
(`none` when `retries = 0`, in which case Python's `resp` is unbound). -/
def retryLoop {α : Type} (status : α → Nat) (responses : Nat → α) :
    Nat → Nat → Nat × Option α
  | 0, _ => (0, none)
  | r + 1, i =>
    if status (responses i) = 200 then (1, some (responses i))
    else
      match retryLoop status responses r (i + 1) with
      | (c, none) => (c + 1, some (responses i))
      | (c, some last) => (c + 1, some last)

/-- The form body built by `_get_collection_file_ids` (lines 208-210):
`{"collectioncount": str(len(ids))}` plus `publishedfileids[i]` entries. -/
def collection_request_data (collection_ids : List String) : List (String × FormValue) :=
  ("collectioncount", FormValue.str (toString collection_ids.length)) ::
    collection_ids.enum.map
      (fun iv => ("publishedfileids[" ++ toString iv.1 ++ "]", FormValue.str iv.2))

/-- The form body built by `_get_steam_file_info` (lines 246-248):
`{"itemcount": len(ids)}` (an `int`, unlike the collection call) plus
`publishedfileids[i]` entries. -/
def file_info_request_data (file_ids : List String) : List (String × FormValue) :=
  ("itemcount", FormValue.int file_ids.length) ::
    file_ids.enum.map
      (fun iv => ("publishedfileids[" ++ toString iv.1 ++ "]", FormValue.str iv.2))

/-- `ServerBase._get_collection_file_ids` (base.py lines 198-234).  `post`
abstracts `requests.post`, keyed by the form body and the attempt index.
Returns the number of POSTs issued and the outcome: `none` models the
`NameError` Python would hit with `retries = 0` (loop body never ran, `resp`
unbound), `some (Except.error (status, body))` the raised `Exception` after
exhausting the retries, `some (Except.ok ids)` the parsed result. -/
def get_collection_file_ids (collection_ids : List String)
    (post : List (String × FormValue) → Nat → CollHttpResponse) (retries : Nat) :
    Nat × Option (Except (Nat × String) (List String)) :=
  match retryLoop (fun r => r.status_code)
      (fun i => post (collection_request_data collection_ids) i) retries 0 with
  | (c, none) => (c, none)
  | (c, some resp) =>
    if resp.status_code ≠ 200 then (c, some (Except.error (resp.status_code, resp.content)))
    else (c, some (Except.ok (collectFileIds resp.json)))

/-- `ServerBase._get_steam_file_info` (base.py lines 236-271), with the same
conventions as `get_collection_file_ids`. -/
def get_steam_file_info (file_ids : List String)
    (post : List (String × FormValue) → Nat → FileHttpResponse) (retries : Nat) :
    Nat × Option (Except (Nat × String) (List (String × FileDetails))) :=
  match retryLoop (fun r => r.status_code)
      (fun i => post (file_info_request_data file_ids) i) retries 0 with
  | (c, none) => (c, none)
  | (c, some resp) =>
    if resp.status_code ≠ 200 then (c, some (Except.error (resp.status_code, resp.content)))
    else (c, some (Except.ok (buildFileInfo resp.json)))

/-- State of the install path when `download_collections` starts: absent,
an existing directory, or an existing non-directory entry. -/
inductive PathState where
  | absent
  | dir
  | nonDir
deriving Repr, DecidableEq

/-- Outcome of a `download_collections` call.  `pathState` is the install
path after the existence check, `loggedNonDir` whether the
`"exists but is not a directory"` line was logged, `collRequests` and
`fileRequests` the metadata POST counts, and `outcome` the pipeline result
(`none` again modelling the unbound-`resp` case). -/
structure DCResult where
  pathState : PathState
  loggedNonDir : Bool
  collRequests : Nat
  fileRequests : Nat
  outcome : Option (Except (Nat × String) LoopResult)

/-- The resolution / metadata / download stages of `download_collections`
(base.py lines 160-183): expand the collections, fetch per-file metadata,
then run the per-file loop.  A raised metadata `Exception` propagates and
aborts the pipeline. -/
def download_collections_pipeline (collection_ids : List String)
    (collPost : List (String × FormValue) → Nat → CollHttpResponse)
    (filePost : List (String × FormValue) → Nat → FileHttpResponse)
    (g : String → HttpResponse) (w : String → FileDetails → LocalFile)
    (fs : String → Option LocalFile) (collRetries fileRetries : Nat) :
    Nat × Nat × Option (Except (Nat × String) LoopResult) :=
  match get_collection_file_ids collection_ids collPost collRetries with
  | (c1, none) => (c1, 0, none)
  | (c1, some (Except.error e)) => (c1, 0, some (Except.error e))
  | (c1, some (Except.ok file_ids)) =>
    match get_steam_file_info file_ids filePost fileRetries with
    | (c2, none) => (c1, c2, none)
    | (c2, some (Except.error e)) => (c1, c2, some (Except.error e))
    | (c2, some (Except.ok file_details)) =>
      (c1, c2, some (Except.ok (download_collections_loop g w fs file_details)))

/-- `ServerBase.download_collections` (base.py lines 143-183).  The install
path check (lines 153-158) only logs when the path exists and is not a
directory, creates it when absent, and in every case falls through to the
pipeline stages. -/
def download_collections (install_path : PathState) (collection_ids : List String)
    (collPost : List (String × FormValue) → Nat → CollHttpResponse)
    (filePost : List (String × FormValue) → Nat → FileHttpResponse)
    (g : String → HttpResponse) (w : String → FileDetails → LocalFile)
    (fs : String → Option LocalFile) (collRetries fileRetries : Nat) : DCResult :=
  let pipe := download_collections_pipeline collection_ids collPost filePost g w fs
    collRetries fileRetries
  ⟨match install_path with
    | PathState.absent => PathState.dir
    | s => s,
   decide (install_path = PathState.nonDir),
   pipe.1, pipe.2.1, pipe.2.2⟩

/-- Local-file observations made by `_allied_mods_download`. -/
structure AlliedLocal where
  is_file : Bool
  st_size : Nat
  st_mtime : Int
deriving Repr, DecidableEq

/-- The `Content-Length` (verbatim header string) and parsed `Last-Modified`
timestamp of the HEAD response in `_allied_mods_download`. -/
structure AlliedHead where
  content_length : String
  last_modified : Int
deriving Repr, DecidableEq

/-- The update check of `ServerBase._allied_mods_download` (base.py lines
302-322): when the local file exists, skip (return `false`) exactly when
`remote_size == local_size and time_diff.days < 0`, where
`remote_size` is the header string, `local_size` is `str(st_size)`, and
`time_diff.days < 0` holds iff `remote_ts - local_ts` is negative, i.e. the
local mtime is strictly later.  Otherwise download and return `true`. -/
def allied_mods_download (loc : AlliedLocal) (head : AlliedHead) : Bool :=
  if loc.is_file then
    if head.content_length = toString loc.st_size ∧
        head.last_modified - loc.st_mtime < 0 then false
    else true
  else true

/-- Spec-side definition, from the words of §4.2 of the specification:
keep each identifier's first occurrence and drop every later duplicate. -/
def firstSeenDedup : List String → List String
  | [] => []
  | x :: xs => x :: firstSeenDedup (xs.filter (fun y => decide (y ≠ x)))
termination_by l => l.length
decreasing_by
  simp_wf
  exact Nat.lt_succ_of_le (List.length_filter_le _ _)

/-! ### Lemmas about the per-file download loop -/

theorem loop_nil (g : String → HttpResponse) (w : String → FileDetails → LocalFile)
    (fs : String → Option LocalFile) :
    download_collections_loop g w fs [] = ⟨fs, [], [], 0, none⟩ := rfl

theorem loop_cons (g : String → HttpResponse) (w : String → FileDetails → LocalFile)
    (fs : String → Option LocalFile) (k : String) (d : FileDetails)
    (rest : List (String × FileDetails)) :
    download_collections_loop g w fs ((k, d) :: rest) =
      if planned fs k d = true then
        if 400 ≤ (g d.file_url).status_code ∧ (g d.file_url).status_code < 600 then
          ⟨fs, [], [(k, d)], 1, some ((g d.file_url).status_code, (g d.file_url).content)⟩
        else
          ⟨(download_collections_loop g w (updateFS fs (dest_path k d) (w k d)) rest).fs,
           (k, d) :: (download_collections_loop g w
              (updateFS fs (dest_path k d) (w k d)) rest).downloaded,
           (k, d) :: (download_collections_loop g w
              (updateFS fs (dest_path k d) (w k d)) rest).attempted,
           (download_collections_loop g w
              (updateFS fs (dest_path k d) (w k d)) rest).requests + 1,
           (download_collections_loop g w
              (updateFS fs (dest_path k d) (w k d)) rest).error⟩
      else download_collections_loop g w fs rest := rfl

theorem loop_fs_eq_of_not_mem (g : String → HttpResponse)
    (w : String → FileDetails → LocalFile) :
    ∀ (l : List (String × FileDetails)) (fs : String → Option LocalFile) (q : String),
      q ∉ l.map (fun kd => dest_path kd.1 kd.2) →
      (download_collections_loop g w fs l).fs q = fs q := by
  intro l
  induction l with
  | nil => intro fs q _; rfl
  | cons kd rest ih =>
    intro fs q h
    obtain ⟨k, d⟩ := kd
    simp only [List.map_cons, List.mem_cons, not_or] at h
    obtain ⟨hq, hrest⟩ := h
    rw [loop_cons]
    by_cases hp : planned fs k d = true
    · rw [if_pos hp]
      by_cases hf : 400 ≤ (g d.file_url).status_code ∧ (g d.file_url).status_code < 600
      · rw [if_pos hf]
      · rw [if_neg hf]
        show (download_collections_loop g w (updateFS fs (dest_path k d) (w k d)) rest).fs q
          = fs q
        rw [ih _ _ hrest]
        exact if_neg hq
    · rw [if_neg hp]
      exact ih _ _ hrest

theorem loop_attempted_subset (g : String → HttpResponse)
    (w : String → FileDetails → LocalFile) :
    ∀ (l : List (String × FileDetails)) (fs : String → Option LocalFile)
      (kd : String × FileDetails),
      kd ∈ (download_collections_loop g w fs l).attempted → kd ∈ l := by
  intro l
  induction l with
  | nil => intro fs kd h; exact absurd h (List.not_mem_nil kd)
  | cons kd0 rest ih =>
    intro fs kd h
    obtain ⟨k, d⟩ := kd0
    rw [loop_cons] at h
    by_cases hp : planned fs k d = true
    · rw [if_pos hp] at h
      by_cases hf : 400 ≤ (g d.file_url).status_code ∧ (g d.file_url).status_code < 600
      · rw [if_pos hf] at h
        simp only [List.mem_singleton] at h
        exact h ▸ List.mem_cons_self _ _
      · rw [if_neg hf] at h
        rcases List.mem_cons.mp h with h1 | h2
        · exact h1 ▸ List.mem_cons_self _ _
        · exact List.mem_cons_of_mem _ (ih _ _ h2)
    · rw [if_neg hp] at h
      exact List.mem_cons_of_mem _ (ih _ _ h)

theorem loop_requests_eq_length (g : String → HttpResponse)
    (w : String → FileDetails → LocalFile) :
    ∀ (l : List (String × FileDetails)) (fs : String → Option LocalFile),
      (download_collections_loop g w fs l).requests
        = (download_collections_loop g w fs l).attempted.length := by
  intro l
  induction l with
  | nil => intro fs; rfl
  | cons kd0 rest ih =>
    intro fs
    obtain ⟨k, d⟩ := kd0
    rw [loop_cons]
    by_cases hp : planned fs k d = true
    · rw [if_pos hp]
      by_cases hf : 400 ≤ (g d.file_url).status_code ∧ (g d.file_url).status_code < 600
      · rw [if_pos hf]
        rfl
      · rw [if_neg hf]
        show (download_collections_loop g w _ rest).requests + 1
          = ((k, d) :: (download_collections_loop g w _ rest).attempted).length
        rw [List.length_cons, ih]
    · rw [if_neg hp]
      exact ih _

/-- The Bool skip predicate unfolded to the two conditions of SS4.3. -/
theorem skipFile_eq_true_iff (lf : LocalFile) (d : FileDetails) :
    skipFile lf d = true ↔ (lf.st_size = d.file_size ∨ d.time_updated < lf.st_mtime) := by
  simp [skipFile]

/-- C1: for a metadata entry whose destination path exists with observed state
`lf` when its turn in the loop comes, `download_collections` skips the
download (no content GET for that entry) iff the local size equals the remote
`file_size` or the local mtime is strictly greater than the remote
`time_updated`; when neither holds the file is fetched. -/
theorem C1_skip_predicate (g : String → HttpResponse) (w : String → FileDetails → LocalFile)
    (fs : String → Option LocalFile) (k : String) (d : FileDetails) (lf : LocalFile)
    (rest : List (String × FileDetails))
    (hex : fs (dest_path k d) = some lf) (hnr : (k, d) ∉ rest) :
    (k, d) ∈ (download_collections_loop g w fs ((k, d) :: rest)).attempted
      ↔ ¬(lf.st_size = d.file_size ∨ d.time_updated < lf.st_mtime) := by
  have hpl : planned fs k d = !(skipFile lf d) := by
    unfold planned
    rw [hex]
  rw [loop_cons]
  by_cases hs : skipFile lf d = true
  · have hp : ¬(planned fs k d = true) := by
      rw [hpl, hs]
      decide
    have hP : lf.st_size = d.file_size ∨ d.time_updated < lf.st_mtime :=
      (skipFile_eq_true_iff lf d).mp hs
    rw [if_neg hp]
    constructor
    · intro hm
      exact absurd (loop_attempted_subset g w rest fs (k, d) hm) hnr
    · intro hn
      exact absurd hP hn
  · have hp : planned fs k d = true := by
      rw [hpl]
      simp [hs]
    have hnP : ¬(lf.st_size = d.file_size ∨ d.time_updated < lf.st_mtime) :=
      fun hP => hs ((skipFile_eq_true_iff lf d).mpr hP)
    rw [if_pos hp]
    by_cases hf : 400 ≤ (g d.file_url).status_code ∧ (g d.file_url).status_code < 600
    · rw [if_pos hf]
      exact ⟨fun _ => hnP, fun _ => List.mem_singleton.mpr rfl⟩
    · rw [if_neg hf]
      exact ⟨fun _ => hnP, fun _ => List.mem_cons_self _ _⟩

def gW : String → HttpResponse := fun _ => ⟨200, ""⟩
def wW : String → FileDetails → LocalFile := fun _ d => ⟨d.file_size, 0⟩
def dW : FileDetails := ⟨"m.vpk", 100, 50, "u"⟩
def fsW : String → Option LocalFile := fun p => if p = "7.vpk" then some ⟨100, 0⟩ else none

theorem C1_skip_predicate_witness :
    (("7", dW) ∈ (download_collections_loop gW wW fsW [("7", dW)]).attempted)
      ↔ ¬((100 : Nat) = dW.file_size ∨ dW.time_updated < (0 : Int)) :=
  C1_skip_predicate gW wW fsW "7" dW ⟨100, 0⟩ [] (by decide) (by decide)

/-- C8: when a planned file's content GET returns a non-success status,
`_download_file` raises at the first request (no retry at this layer: the
total GET count is one per attempted entry) and the sequential loop aborts:
the error carries that response's status and body, nothing after the failing
entry is attempted, nothing more is downloaded, exactly one extra request was
issued, and the filesystem is unchanged from the failing entry on. -/
theorem C8_transfer_abort (g : String → HttpResponse) (w : String → FileDetails → LocalFile)
    (fs : String → Option LocalFile) (pre post : List (String × FileDetails))
    (k : String) (d : FileDetails)
    (h1 : (download_collections_loop g w fs pre).error = none)
    (h2 : planned (download_collections_loop g w fs pre).fs k d = true)
    (h3 : 400 ≤ (g d.file_url).status_code)
    (h4 : (g d.file_url).status_code < 600) :
    (download_collections_loop g w fs (pre ++ (k, d) :: post)).error
        = some ((g d.file_url).status_code, (g d.file_url).content)
  ∧ (download_collections_loop g w fs (pre ++ (k, d) :: post)).attempted
        = (download_collections_loop g w fs pre).attempted ++ [(k, d)]
  ∧ (download_collections_loop g w fs (pre ++ (k, d) :: post)).downloaded
        = (download_collections_loop g w fs pre).downloaded
  ∧ (download_collections_loop g w fs (pre ++ (k, d) :: post)).requests
        = (download_collections_loop g w fs pre).requests + 1
  ∧ (∀ q, (download_collections_loop g w fs (pre ++ (k, d) :: post)).fs q
        = (download_collections_loop g w fs pre).fs q)
  ∧ (download_collections_loop g w fs (pre ++ (k, d) :: post)).requests
        = (download_collections_loop g w fs (pre ++ (k, d) :: post)).attempted.length := by
  induction pre generalizing fs with
  | nil =>
    simp only [List.nil_append] at *
    rw [loop_nil] at h1 h2 ⊢
    rw [loop_cons, if_pos h2, if_pos (⟨h3, h4⟩ : _ ∧ _)]
    exact ⟨rfl, rfl, rfl, rfl, fun _ => rfl, rfl⟩
  | cons kd0 pre ih =>
    obtain ⟨k0, d0⟩ := kd0
    by_cases hp0 : planned fs k0 d0 = true
    · by_cases hf0 : 400 ≤ (g d0.file_url).status_code ∧ (g d0.file_url).status_code < 600
      · rw [loop_cons, if_pos hp0, if_pos hf0] at h1
        exact absurd h1 (by simp)
      · rw [loop_cons, if_pos hp0, if_neg hf0] at h1 h2
        have h1' : (download_collections_loop g w
            (updateFS fs (dest_path k0 d0) (w k0 d0)) pre).error = none := h1
        have h2' : planned (download_collections_loop g w
            (updateFS fs (dest_path k0 d0) (w k0 d0)) pre).fs k d = true := h2
        obtain ⟨ih1, ih2, ih3, ih4, ih5, ih6⟩ := ih _ h1' h2'
        rw [List.cons_append, loop_cons, if_pos hp0, if_neg hf0,
          loop_cons g w fs k0 d0 pre, if_pos hp0, if_neg hf0]
        refine ⟨ih1, ?_, ?_, ?_, ih5, ?_⟩
        · show (k0, d0) :: _ = ((k0, d0) :: _) ++ [(k, d)]
          rw [List.cons_append, ih2]
        · show (k0, d0) :: _ = (k0, d0) :: _
          rw [ih3]
        · show _ + 1 = (_ + 1) + 1
          rw [ih4]
        · show _ + 1 = ((k0, d0) :: _).length
          rw [List.length_cons, ih6]
    · rw [loop_cons, if_neg hp0] at h1 h2
      rw [List.cons_append, loop_cons, if_neg hp0, loop_cons g w fs k0 d0 pre, if_neg hp0]
      exact ih fs h1 h2

def dF : FileDetails := ⟨"m.vpk", 100, 50, "u"⟩
def dG : FileDetails := ⟨"n.vpk", 7, 8, "v"⟩
def gF : String → HttpResponse := fun _ => ⟨404, "nope"⟩
def fsN : String → Option LocalFile := fun _ => none

theorem C8_transfer_abort_witness :
    (download_collections_loop gF wW fsN [("7", dF), ("8", dG)]).error = some (404, "nope")
  ∧ (download_collections_loop gF wW fsN [("7", dF), ("8", dG)]).attempted = [("7", dF)]
  ∧ (download_collections_loop gF wW fsN [("7", dF), ("8", dG)]).downloaded = []
  ∧ (download_collections_loop gF wW fsN [("7", dF), ("8", dG)]).requests = 1 :=
  have h := C8_transfer_abort gF wW fsN [] [("8", dG)] "7" dF rfl (by decide)
    (by decide) (by decide)
  ⟨h.1, h.2.1, h.2.2.1, h.2.2.2.1⟩

def d1 : FileDetails := ⟨"foo", 100, 1000, "u1"⟩
def d2 : FileDetails := ⟨"x.vpk", 200, 1000, "u2"⟩
def fd7 : List (String × FileDetails) := [("1.vpk", d1), ("1", d2)]
def fs7 : String → Option LocalFile := fun p => if p = "1.vpk" then some ⟨100, 0⟩ else none
def g7 : String → HttpResponse := fun _ => ⟨200, ""⟩
def w7 : String → FileDetails → LocalFile := fun _ d => ⟨d.file_size, 0⟩

/-- C7 counterexample: two FileIDs (`"1.vpk"` with a suffix-less remote name,
`"1"` with a `.vpk` remote name) share the destination name `1.vpk`.  The
first run skips the first entry (size match) and downloads the second over
the same path; every downloaded file's on-disk size then equals its remote
`file_size`, the first run raised nothing, yet the second run's plan is not
empty, because the colliding download invalidated the skipped entry's size
match while its mtime is older than the remote `time_updated`. -/
theorem C7_counterexample :
    (download_collections_loop g7 w7 fs7 fd7).error = none
  ∧ (∀ kd ∈ fd7, kd ∈ (download_collections_loop g7 w7 fs7 fd7).downloaded →
      Option.map LocalFile.st_size
        ((download_collections_loop g7 w7 fs7 fd7).fs (dest_path kd.1 kd.2))
        = some kd.2.file_size)
  ∧ (download_collections_loop g7 w7
      (download_collections_loop g7 w7 fs7 fd7).fs fd7).attempted ≠ [] := by
  decide

/-- C7 amended: under the additional assumption that no two metadata entries
share a destination file name, a second run of the per-file loop against the
same metadata and the directory state left by a first run that raised no
error and whose downloaded files all have on-disk size equal to the remote
`file_size` attempts (hence downloads) nothing. -/
theorem C7_idempotent_plan (g g2 : String → HttpResponse)
    (w w2 : String → FileDetails → LocalFile) (fd : List (String × FileDetails)) :
    ∀ fs0 : String → Option LocalFile,
      (fd.map (fun kd => dest_path kd.1 kd.2)).Nodup →
      (download_collections_loop g w fs0 fd).error = none →
      (∀ kd ∈ fd, kd ∈ (download_collections_loop g w fs0 fd).downloaded →
        Option.map LocalFile.st_size
          ((download_collections_loop g w fs0 fd).fs (dest_path kd.1 kd.2))
          = some kd.2.file_size) →
      (download_collections_loop g2 w2
          (download_collections_loop g w fs0 fd).fs fd).attempted = []
      ∧ (download_collections_loop g2 w2
          (download_collections_loop g w fs0 fd).fs fd).downloaded = [] := by
  induction fd with
  | nil => intro fs0 _ _ _; exact ⟨rfl, rfl⟩
  | cons kd rest ih =>
    intro fs0 hnd herr hsz
    obtain ⟨k, d⟩ := kd
    rw [List.map_cons, List.nodup_cons] at hnd
    obtain ⟨hPnotin, hndrest⟩ := hnd
    by_cases hp : planned fs0 k d = true
    · by_cases hf : 400 ≤ (g d.file_url).status_code ∧ (g d.file_url).status_code < 600
      · rw [loop_cons, if_pos hp, if_pos hf] at herr
        exact absurd herr (by simp)
      · rw [loop_cons, if_pos hp, if_neg hf] at herr hsz
        have herr' : (download_collections_loop g w
            (updateFS fs0 (dest_path k d) (w k d)) rest).error = none := herr
        have hsz_head : Option.map LocalFile.st_size
            ((download_collections_loop g w
              (updateFS fs0 (dest_path k d) (w k d)) rest).fs (dest_path k d))
            = some d.file_size :=
          hsz (k, d) (List.mem_cons_self _ _) (List.mem_cons_self _ _)
        obtain ⟨lf1, hS, hlf1⟩ := Option.map_eq_some'.mp hsz_head
        have hpS : ¬(planned (download_collections_loop g w
            (updateFS fs0 (dest_path k d) (w k d)) rest).fs k d = true) := by
          unfold planned
          rw [hS]
          simp [skipFile, hlf1]
        have hsz' : ∀ kd ∈ rest, kd ∈ (download_collections_loop g w
            (updateFS fs0 (dest_path k d) (w k d)) rest).downloaded →
            Option.map LocalFile.st_size
              ((download_collections_loop g w
                (updateFS fs0 (dest_path k d) (w k d)) rest).fs (dest_path kd.1 kd.2))
              = some kd.2.file_size :=
          fun kd hkd hdl => hsz kd (List.mem_cons_of_mem _ hkd) (List.mem_cons_of_mem _ hdl)
        have hmain := ih (updateFS fs0 (dest_path k d) (w k d)) hndrest herr' hsz'
        have hfs_eq : (download_collections_loop g w fs0 ((k, d) :: rest)).fs
            = (download_collections_loop g w
                (updateFS fs0 (dest_path k d) (w k d)) rest).fs := by
          rw [loop_cons, if_pos hp, if_neg hf]
        have hcons : download_collections_loop g2 w2
            (download_collections_loop g w
              (updateFS fs0 (dest_path k d) (w k d)) rest).fs ((k, d) :: rest)
            = download_collections_loop g2 w2
              (download_collections_loop g w
                (updateFS fs0 (dest_path k d) (w k d)) rest).fs rest := by
          rw [loop_cons, if_neg hpS]
        rw [hfs_eq, hcons]
        exact hmain
    · rw [loop_cons, if_neg hp] at herr hsz
      cases hfs0 : fs0 (dest_path k d) with
      | none =>
        exfalso
        apply hp
        unfold planned
        rw [hfs0]
      | some lf =>
        have hskip : skipFile lf d = true := by
          cases hsk : skipFile lf d with
          | true => rfl
          | false =>
            exfalso
            apply hp
            unfold planned
            rw [hfs0]
            show (!skipFile lf d) = true
            rw [hsk]
            rfl
        have hSfs : (download_collections_loop g w fs0 rest).fs (dest_path k d)
            = fs0 (dest_path k d) :=
          loop_fs_eq_of_not_mem g w rest fs0 _ hPnotin
        have hpS : ¬(planned (download_collections_loop g w fs0 rest).fs k d = true) := by
          unfold planned
          rw [hSfs, hfs0]
          show ¬(!skipFile lf d) = true
          rw [hskip]
          decide
        have hsz' : ∀ kd ∈ rest, kd ∈ (download_collections_loop g w fs0 rest).downloaded →
            Option.map LocalFile.st_size
              ((download_collections_loop g w fs0 rest).fs (dest_path kd.1 kd.2))
              = some kd.2.file_size :=
          fun kd hkd hdl => hsz kd (List.mem_cons_of_mem _ hkd) hdl
        have hmain := ih fs0 hndrest herr hsz'
        have hfs_eq : (download_collections_loop g w fs0 ((k, d) :: rest)).fs
            = (download_collections_loop g w fs0 rest).fs := by
          rw [loop_cons, if_neg hp]
        have hcons : download_collections_loop g2 w2
            (download_collections_loop g w fs0 rest).fs ((k, d) :: rest)
            = download_collections_loop g2 w2
              (download_collections_loop g w fs0 rest).fs rest := by
          rw [loop_cons, if_neg hpS]
        rw [hfs_eq, hcons]
        exact hmain

def fd1 : List (String × FileDetails) := [("7", dW)]

theorem C7_idempotent_plan_witness :
    (download_collections_loop gW wW
        (download_collections_loop gW wW fsN fd1).fs fd1).attempted = []
  ∧ (download_collections_loop gW wW
        (download_collections_loop gW wW fsN fd1).fs fd1).downloaded = [] :=
  C7_idempotent_plan gW gW wW wW fd1 fsN (by decide) (by decide) (by decide)

/-! ### Lemmas about the collection resolver dedup -/

theorem mem_dedupStep (acc : List String) (x y : String) :
    y ∈ dedupStep acc x ↔ y ∈ acc ∨ y = x := by
  unfold dedupStep
  by_cases hx : x ∈ acc
  · rw [if_pos hx]
    constructor
    · exact Or.inl
    · rintro (h | rfl)
      · exact h
      · exact hx
  · rw [if_neg hx]
    simp [List.mem_append]

theorem nodup_dedupStep (acc : List String) (x : String) (h : acc.Nodup) :
    (dedupStep acc x).Nodup := by
  unfold dedupStep
  by_cases hx : x ∈ acc
  · rw [if_pos hx]
    exact h
  · rw [if_neg hx]
    rw [List.nodup_append]
    exact ⟨h, List.nodup_singleton x,
      fun a ha hb => hx ((List.mem_singleton.mp hb) ▸ ha)⟩

theorem nodup_foldl_dedupStep :
    ∀ (xs acc : List String), acc.Nodup → (xs.foldl dedupStep acc).Nodup := by
  intro xs
  induction xs with
  | nil => intro acc h; exact h
  | cons x xs ih =>
    intro acc h
    rw [List.foldl_cons]
    exact ih _ (nodup_dedupStep acc x h)

theorem foldl_dedupStep_eq :
    ∀ (xs acc : List String),
      xs.foldl dedupStep acc
        = acc ++ firstSeenDedup (xs.filter (fun y => decide (y ∉ acc))) := by
  intro xs
  induction xs with
  | nil =>
    intro acc
    simp [firstSeenDedup]
  | cons x xs ih =>
    intro acc
    rw [List.foldl_cons]
    by_cases hx : x ∈ acc
    · have hstep : dedupStep acc x = acc := by
        unfold dedupStep
        exact if_pos hx
      have hfx : decide (x ∉ acc) = false := by
        simp [hx]
      rw [hstep, List.filter_cons, hfx, if_neg Bool.false_ne_true]
      exact ih acc
    · have hstep : dedupStep acc x = acc ++ [x] := by
        unfold dedupStep
        exact if_neg hx
      have hfx : decide (x ∉ acc) = true := by
        simp [hx]
      have hfilter : xs.filter (fun y => decide (y ∉ acc ++ [x]))
          = (xs.filter (fun y => decide (y ∉ acc))).filter (fun y => decide (y ≠ x)) := by
        rw [List.filter_filter]
        apply List.filter_congr
        intro y _
        by_cases h1 : y ∈ acc <;> by_cases h2 : y = x <;>
          simp [h1, h2, List.mem_append]
      rw [hstep, ih (acc ++ [x]), hfilter, List.filter_cons, hfx, if_pos rfl]
      rw [firstSeenDedup]
      rw [List.append_assoc, List.singleton_append]

theorem collect_foldl_flatten :
    ∀ (ds : List CollectionDetail) (acc : List String),
      ds.foldl (fun resp result => result.children.foldl dedupStep resp) acc
        = (ds.map CollectionDetail.children).flatten.foldl dedupStep acc := by
  intro ds
  induction ds with
  | nil => intro acc; rfl
  | cons dd ds ih =>
    intro acc
    rw [List.foldl_cons, ih, List.map_cons, List.flatten_cons, List.foldl_append]

theorem filter_not_mem_nil (l : List String) :
    l.filter (fun y => decide (y ∉ ([] : List String))) = l := by
  have h : ∀ y ∈ l, (fun y => decide (y ∉ ([] : List String))) y = (fun _ => true) y := by
    intro y _
    simp
  rw [List.filter_congr h, List.filter_true]

/-- C2: `_get_collection_file_ids` walks the response's collections in order
and returns exactly the first-seen-order dedup of the concatenated child
lists; in particular every FileID appears at most once. -/
theorem C2_resolve_membership_dedup (c : CollectionsResponse) :
    collectFileIds c
      = firstSeenDedup (c.collectiondetails.map CollectionDetail.children).flatten
    ∧ (collectFileIds c).Nodup := by
  constructor
  · show c.collectiondetails.foldl _ [] = _
    rw [collect_foldl_flatten, foldl_dedupStep_eq, filter_not_mem_nil, List.nil_append]
  · show (c.collectiondetails.foldl _ []).Nodup
    rw [collect_foldl_flatten]
    exact nodup_foldl_dedupStep _ _ List.nodup_nil

/-! ### Lemmas about the file-details dictionary -/

theorem some_or_eq (a : String × FileDetails) (o : Option (String × FileDetails)) :
    (some a).or o = some a := rfl

theorem buildFileInfoAux_find? :
    ∀ (entries : List PublishedFileDetail) (acc : List (String × FileDetails)) (id : String),
      (buildFileInfoAux acc entries).find? (fun kd => kd.1 == id)
        = (acc.find? (fun kd => kd.1 == id)).or
            ((entries.find? (fun e => e.publishedfileid == id)).map
              (fun e => (e.publishedfileid, toFileDetails e))) := by
  intro entries
  induction entries with
  | nil =>
    intro acc id
    show (acc.find? _) = _
    rw [List.find?_nil, Option.map_none', Option.or_none]
  | cons e rest ih =>
    intro acc id
    rw [show buildFileInfoAux acc (e :: rest)
        = if acc.any (fun p => p.1 == e.publishedfileid) = true
          then buildFileInfoAux acc rest
          else buildFileInfoAux (acc ++ [(e.publishedfileid, toFileDetails e)]) rest
      from rfl]
    by_cases hA : acc.any (fun p => p.1 == e.publishedfileid) = true
    · rw [if_pos hA, ih]
      by_cases hE : (e.publishedfileid == id) = true
      · have hid : e.publishedfileid = id := beq_iff_eq.mp hE
        have hsome : ∃ v, acc.find? (fun kd => kd.1 == id) = some v := by
          have h1 := List.any_eq_true.mp hA
          obtain ⟨p, hp, hpe⟩ := h1
          have h2 : (acc.find? (fun kd => kd.1 == id)).isSome = true :=
            List.find?_isSome.mpr ⟨p, hp, by rw [← hid]; exact hpe⟩
          exact ⟨(acc.find? (fun kd => kd.1 == id)).get h2, Option.eq_some_of_isSome h2⟩
        obtain ⟨v, hv⟩ := hsome
        rw [hv, some_or_eq, some_or_eq]
      · rw [@List.find?_cons_of_neg _ (fun e' => e'.publishedfileid == id) e rest hE]
    · rw [if_neg hA, ih, List.find?_append]
      by_cases hE : (e.publishedfileid == id) = true
      · have hid : e.publishedfileid = id := beq_iff_eq.mp hE
        have hnone : acc.find? (fun kd => kd.1 == id) = none := by
          rw [List.find?_eq_none]
          intro p hp hpe
          exact hA (List.any_eq_true.mpr ⟨p, hp, by rw [hid]; exact hpe⟩)
        rw [hnone, Option.none_or, Option.none_or,
          @List.find?_cons_of_pos _ (fun e' => e'.publishedfileid == id) e rest hE,
          List.find?_singleton]
        have hx : (fun kd => kd.1 == id) (e.publishedfileid, toFileDetails e) = true := hE
        rw [if_pos hx, some_or_eq, Option.map_some']
      · have hxn : ¬((fun kd => kd.1 == id) (e.publishedfileid, toFileDetails e) = true) := hE
        rw [List.find?_singleton, if_neg hxn, Option.or_none,
          @List.find?_cons_of_neg _ (fun e' => e'.publishedfileid == id) e rest hE]

theorem buildFileInfoAux_nodup_keys :
    ∀ (entries : List PublishedFileDetail) (acc : List (String × FileDetails)),
      (acc.map Prod.fst).Nodup → ((buildFileInfoAux acc entries).map Prod.fst).Nodup := by
  intro entries
  induction entries with
  | nil => intro acc h; exact h
  | cons e rest ih =>
    intro acc h
    show (if acc.any (fun p => p.1 == e.publishedfileid) = true
        then buildFileInfoAux acc rest else _).map Prod.fst |>.Nodup
    by_cases hA : acc.any (fun p => p.1 == e.publishedfileid) = true
    · rw [if_pos hA]
      exact ih acc h
    · rw [if_neg hA]
      apply ih
      rw [List.map_append, List.nodup_append]
      refine ⟨h, List.nodup_singleton _, ?_⟩
      intro a ha hb
      have hae : a = e.publishedfileid := by
        have := List.mem_singleton.mp hb
        simpa using this
      obtain ⟨p, hp, hpe⟩ := List.mem_map.mp ha
      exact hA (List.any_eq_true.mpr ⟨p, hp, beq_iff_eq.mpr (by rw [hpe, hae])⟩)

theorem buildFileInfoAux_mem_source :
    ∀ (entries : List PublishedFileDetail) (acc : List (String × FileDetails))
      (kd : String × FileDetails),
      kd ∈ buildFileInfoAux acc entries →
      kd ∈ acc ∨ ∃ e ∈ entries, e.publishedfileid = kd.1 ∧ toFileDetails e = kd.2 := by
  intro entries
  induction entries with
  | nil => intro acc kd h; exact Or.inl h
  | cons e rest ih =>
    intro acc kd h
    rw [show buildFileInfoAux acc (e :: rest)
        = if acc.any (fun p => p.1 == e.publishedfileid) = true
          then buildFileInfoAux acc rest
          else buildFileInfoAux (acc ++ [(e.publishedfileid, toFileDetails e)]) rest
      from rfl] at h
    by_cases hA : acc.any (fun p => p.1 == e.publishedfileid) = true
    · rw [if_pos hA] at h
      rcases ih acc kd h with h1 | ⟨e', he', hp⟩
      · exact Or.inl h1
      · exact Or.inr ⟨e', List.mem_cons_of_mem _ he', hp⟩
    · rw [if_neg hA] at h
      rcases ih _ kd h with h1 | ⟨e', he', hp⟩
      · rcases List.mem_append.mp h1 with h2 | h3
        · exact Or.inl h2
        · have h4 := List.mem_singleton.mp h3
          exact Or.inr ⟨e, List.mem_cons_self _ _, by rw [h4], by rw [h4]⟩
      · exact Or.inr ⟨e', List.mem_cons_of_mem _ he', hp⟩

/-- C6: the dictionary `_get_steam_file_info` builds keeps, for every FileID,
exactly the metadata of that FileID's first occurrence in the remote
response, silently dropping later duplicates (its keys are duplicate-free and
lookup agrees with first-occurrence search in the raw response). -/
theorem C6_first_occurrence_wins (entries : List PublishedFileDetail) (id : String) :
    (buildFileInfo entries).find? (fun kd => kd.1 == id)
      = (entries.find? (fun e => e.publishedfileid == id)).map
          (fun e => (e.publishedfileid, toFileDetails e))
    ∧ ((buildFileInfo entries).map Prod.fst).Nodup := by
  constructor
  · rw [show buildFileInfo entries = buildFileInfoAux [] entries from rfl,
      buildFileInfoAux_find?]
    rw [List.find?_nil, Option.none_or]
  · exact buildFileInfoAux_nodup_keys entries [] List.nodup_nil

def e5 : PublishedFileDetail := ⟨"9", "a.vpk", 5, 10, ""⟩
def g5 : String → HttpResponse := fun _ => ⟨200, "body"⟩
def w5 : String → FileDetails → LocalFile := fun _ d => ⟨d.file_size, 0⟩

/-- C5 counterexample: a remote file-details response whose single entry has
an empty `file_url` still puts that FileID in the plan — the entry is passed
to the bulk fetcher (its content GET is issued) with an empty download URL;
no non-emptiness check exists anywhere on the path. -/
theorem C5_counterexample :
    ("9", (⟨"a.vpk", 5, 10, ""⟩ : FileDetails)) ∈
      (download_collections_loop g5 w5 (fun _ => none) (buildFileInfo [e5])).attempted
    ∧ (⟨"a.vpk", 5, 10, ""⟩ : FileDetails).file_url = "" := by
  decide

theorem find?_key_of_mem_of_nodup :
    ∀ (l : List (String × FileDetails)) (kd : String × FileDetails),
      (l.map Prod.fst).Nodup → kd ∈ l →
      l.find? (fun p => p.1 == kd.1) = some kd := by
  intro l
  induction l with
  | nil => intro kd _ h; exact absurd h (List.not_mem_nil kd)
  | cons x xs ih =>
    intro kd hnd hmem
    rw [List.map_cons, List.nodup_cons] at hnd
    obtain ⟨hx, hnd'⟩ := hnd
    rcases List.mem_cons.mp hmem with h1 | h2
    · rw [h1]
      exact List.find?_cons_of_pos _ (beq_self_eq_true x.1)
    · have hne : ¬((fun p => p.1 == kd.1) x = true) := by
        intro hc
        apply hx
        rw [beq_iff_eq] at hc
        rw [hc]
        exact List.mem_map.mpr ⟨kd, h2, rfl⟩
      rw [@List.find?_cons_of_neg _ (fun p => p.1 == kd.1) x xs hne]
      exact ih kd hnd' h2

/-- C5 amended: every FileID that reaches the plan carries a download URL
taken verbatim from the `file_url` field of that FileID's FIRST occurrence
in the remote response (`List.find?` returns the first match) — the URL may
be empty, since the code never validates it. -/
theorem C5_plan_url_verbatim (entries : List PublishedFileDetail)
    (g : String → HttpResponse) (w : String → FileDetails → LocalFile)
    (fs : String → Option LocalFile) (kd : String × FileDetails)
    (h : kd ∈ (download_collections_loop g w fs (buildFileInfo entries)).attempted) :
    ∃ e, entries.find? (fun e' => e'.publishedfileid == kd.1) = some e
      ∧ e.publishedfileid = kd.1 ∧ e.file_url = kd.2.file_url := by
  have hmem : kd ∈ buildFileInfo entries :=
    loop_attempted_subset g w (buildFileInfo entries) fs kd h
  have hnodup : ((buildFileInfo entries).map Prod.fst).Nodup :=
    buildFileInfoAux_nodup_keys entries [] List.nodup_nil
  have hfind : (buildFileInfo entries).find? (fun p => p.1 == kd.1) = some kd :=
    find?_key_of_mem_of_nodup (buildFileInfo entries) kd hnodup hmem
  have h2 : (buildFileInfo entries).find? (fun p => p.1 == kd.1)
      = (entries.find? (fun e => e.publishedfileid == kd.1)).map
          (fun e => (e.publishedfileid, toFileDetails e)) := by
    rw [show buildFileInfo entries = buildFileInfoAux [] entries from rfl,
      buildFileInfoAux_find?]
    rw [List.find?_nil, Option.none_or]
  rw [hfind] at h2
  obtain ⟨e, he, hfe⟩ := Option.map_eq_some'.mp h2.symm
  refine ⟨e, he, ?_, ?_⟩
  · rw [← hfe]
  · rw [← hfe]
    rfl

theorem C5_plan_url_verbatim_witness :
    ∃ e, [(⟨"9", "a.vpk", 5, 10, "u1"⟩ : PublishedFileDetail),
          (⟨"9", "b.vpk", 6, 11, "u2"⟩ : PublishedFileDetail)].find?
        (fun e' => e'.publishedfileid == "9") = some e
      ∧ e.publishedfileid = "9"
      ∧ e.file_url = (⟨"a.vpk", 5, 10, "u1"⟩ : FileDetails).file_url :=
  C5_plan_url_verbatim
    [⟨"9", "a.vpk", 5, 10, "u1"⟩, ⟨"9", "b.vpk", 6, 11, "u2"⟩] gW wW (fun _ => none)
    ("9", ⟨"a.vpk", 5, 10, "u1"⟩) (by decide)

/-! ### Lemmas about the metadata retry loop -/

theorem retryLoop_zero {α : Type} (status : α → Nat) (resp : Nat → α) (i : Nat) :
    retryLoop status resp 0 i = (0, none) := rfl

theorem retryLoop_succ {α : Type} (status : α → Nat) (resp : Nat → α) (r i : Nat) :
    retryLoop status resp (r + 1) i =
      if status (resp i) = 200 then (1, some (resp i))
      else
        match retryLoop status resp r (i + 1) with
        | (c, none) => (c + 1, some (resp i))
        | (c, some last) => (c + 1, some last) := rfl

theorem retryLoop_fail_all {α : Type} (status : α → Nat) (resp : Nat → α) :
    ∀ (n i : Nat), (∀ j, j < n + 1 → status (resp (i + j)) ≠ 200) →
      retryLoop status resp (n + 1) i = (n + 1, some (resp (i + n))) := by
  intro n
  induction n with
  | zero =>
    intro i h
    have h0 : status (resp i) ≠ 200 := h 0 (by omega)
    rw [retryLoop_succ, if_neg h0, retryLoop_zero]
    rfl
  | succ n ih =>
    intro i h
    have h0 : status (resp i) ≠ 200 := h 0 (by omega)
    have h' : ∀ j, j < n + 1 → status (resp (i + 1 + j)) ≠ 200 := by
      intro j hj
      rw [show i + 1 + j = i + (j + 1) from by omega]
      exact h (j + 1) (by omega)
    rw [retryLoop_succ, if_neg h0, ih (i + 1) h',
      show i + 1 + n = i + (n + 1) from by omega]

theorem retryLoop_first_success {α : Type} (status : α → Nat) (resp : Nat → α)
    (r i : Nat) (h : status (resp i) = 200) :
    retryLoop status resp (r + 1) i = (1, some (resp i)) := by
  rw [retryLoop_succ, if_pos h]

theorem retryLoop_fst_pos {α : Type} (status : α → Nat) (resp : Nat → α) (r i : Nat) :
    1 ≤ (retryLoop status resp (r + 1) i).1 := by
  rw [retryLoop_succ]
  by_cases h : status (resp i) = 200
  · rw [if_pos h]
  · rw [if_neg h]
    rcases hr : retryLoop status resp r (i + 1) with ⟨c, o⟩
    cases o <;> simp

theorem get_collection_file_ids_of_loop (ids : List String)
    (post : List (String × FormValue) → Nat → CollHttpResponse) (retries c : Nat)
    (resp : CollHttpResponse)
    (h : retryLoop (fun r => r.status_code)
        (fun i => post (collection_request_data ids) i) retries 0 = (c, some resp)) :
    get_collection_file_ids ids post retries
      = if resp.status_code ≠ 200
        then (c, some (Except.error (resp.status_code, resp.content)))
        else (c, some (Except.ok (collectFileIds resp.json))) := by
  unfold get_collection_file_ids
  rw [h]

theorem get_steam_file_info_of_loop (ids : List String)
    (post : List (String × FormValue) → Nat → FileHttpResponse) (retries c : Nat)
    (resp : FileHttpResponse)
    (h : retryLoop (fun r => r.status_code)
        (fun i => post (file_info_request_data ids) i) retries 0 = (c, some resp)) :
    get_steam_file_info ids post retries
      = if resp.status_code ≠ 200
        then (c, some (Except.error (resp.status_code, resp.content)))
        else (c, some (Except.ok (buildFileInfo resp.json))) := by
  unfold get_steam_file_info
  rw [h]

/-- C3: with a positive retry budget `n + 1`, both metadata operations issue
exactly `n + 1` POSTs when every response is non-success and then fail with
the last response's status code and body; when the first response has status
200 they issue exactly one POST and return the parsed payload. -/
theorem C3_retry_termination (ids : List String) (n : Nat)
    (collPost : List (String × FormValue) → Nat → CollHttpResponse)
    (filePost : List (String × FormValue) → Nat → FileHttpResponse) :
    ((∀ j, j < n + 1 → (collPost (collection_request_data ids) j).status_code ≠ 200) →
      get_collection_file_ids ids collPost (n + 1)
        = (n + 1, some (Except.error
            ((collPost (collection_request_data ids) n).status_code,
             (collPost (collection_request_data ids) n).content))))
  ∧ ((collPost (collection_request_data ids) 0).status_code = 200 →
      get_collection_file_ids ids collPost (n + 1)
        = (1, some (Except.ok (collectFileIds
            (collPost (collection_request_data ids) 0).json))))
  ∧ ((∀ j, j < n + 1 → (filePost (file_info_request_data ids) j).status_code ≠ 200) →
      get_steam_file_info ids filePost (n + 1)
        = (n + 1, some (Except.error
            ((filePost (file_info_request_data ids) n).status_code,
             (filePost (file_info_request_data ids) n).content))))
  ∧ ((filePost (file_info_request_data ids) 0).status_code = 200 →
      get_steam_file_info ids filePost (n + 1)
        = (1, some (Except.ok (buildFileInfo
            (filePost (file_info_request_data ids) 0).json)))) := by
  refine ⟨?_, ?_, ?_, ?_⟩
  · intro h
    have h' : ∀ j, j < n + 1 →
        (fun r : CollHttpResponse => r.status_code)
          ((fun i => collPost (collection_request_data ids) i) (0 + j)) ≠ 200 := by
      intro j hj
      rw [Nat.zero_add]
      exact h j hj
    have hloop := retryLoop_fail_all (fun r : CollHttpResponse => r.status_code)
      (fun i => collPost (collection_request_data ids) i) n 0 h'
    rw [Nat.zero_add] at hloop
    rw [get_collection_file_ids_of_loop ids collPost (n + 1) (n + 1) _ hloop,
      if_pos (h n (by omega))]
  · intro h
    have hloop := retryLoop_first_success (fun r : CollHttpResponse => r.status_code)
      (fun i => collPost (collection_request_data ids) i) n 0 h
    rw [get_collection_file_ids_of_loop ids collPost (n + 1) 1 _ hloop,
      if_neg (fun hc => hc h)]
  · intro h
    have h' : ∀ j, j < n + 1 →
        (fun r : FileHttpResponse => r.status_code)
          ((fun i => filePost (file_info_request_data ids) i) (0 + j)) ≠ 200 := by
      intro j hj
      rw [Nat.zero_add]
      exact h j hj
    have hloop := retryLoop_fail_all (fun r : FileHttpResponse => r.status_code)
      (fun i => filePost (file_info_request_data ids) i) n 0 h'
    rw [Nat.zero_add] at hloop
    rw [get_steam_file_info_of_loop ids filePost (n + 1) (n + 1) _ hloop,
      if_pos (h n (by omega))]
  · intro h
    have hloop := retryLoop_first_success (fun r : FileHttpResponse => r.status_code)
      (fun i => filePost (file_info_request_data ids) i) n 0 h
    rw [get_steam_file_info_of_loop ids filePost (n + 1) 1 _ hloop,
      if_neg (fun hc => hc h)]

def cFail : List (String × FormValue) → Nat → CollHttpResponse := fun _ _ => ⟨404, "bad", ⟨[]⟩⟩
def cOk : List (String × FormValue) → Nat → CollHttpResponse := fun _ _ => ⟨200, "", ⟨[⟨["9"]⟩]⟩⟩
def fFail : List (String × FormValue) → Nat → FileHttpResponse := fun _ _ => ⟨500, "oops", []⟩
def fOk : List (String × FormValue) → Nat → FileHttpResponse :=
  fun _ _ => ⟨200, "", [⟨"9", "a.vpk", 5, 10, "u"⟩]⟩

theorem C3_retry_termination_witness :
    get_collection_file_ids ["3"] cFail 5 = (5, some (Except.error (404, "bad")))
  ∧ get_collection_file_ids ["3"] cOk 5 = (1, some (Except.ok ["9"]))
  ∧ get_steam_file_info ["3"] fFail 5 = (5, some (Except.error (500, "oops")))
  ∧ get_steam_file_info ["3"] fOk 5
      = (1, some (Except.ok [("9", ⟨"a.vpk", 5, 10, "u"⟩)])) :=
  ⟨(C3_retry_termination ["3"] 4 cFail fFail).1 (by decide),
   (C3_retry_termination ["3"] 4 cOk fFail).2.1 (by decide),
   (C3_retry_termination ["3"] 4 cFail fFail).2.2.1 (by decide),
   (C3_retry_termination ["3"] 4 cFail fOk).2.2.2 (by decide)⟩

/-- C10: with an empty `collection_ids` input, `_get_collection_file_ids`
still sends the POST (at least one request for any positive retry budget)
and its form body is exactly `{"collectioncount": "0"}` with no
`publishedfileids` entries. -/
theorem C10_empty_input_still_posts :
    collection_request_data [] = [("collectioncount", FormValue.str "0")]
    ∧ ∀ (post : List (String × FormValue) → Nat → CollHttpResponse) (r : Nat),
        1 ≤ (get_collection_file_ids [] post (r + 1)).1 := by
  constructor
  · rfl
  · intro post r
    have hpos := retryLoop_fst_pos (fun resp : CollHttpResponse => resp.status_code)
      (fun i => post (collection_request_data []) i) r 0
    unfold get_collection_file_ids
    rcases hloop : retryLoop (fun resp : CollHttpResponse => resp.status_code)
        (fun i => post (collection_request_data []) i) (r + 1) 0 with ⟨c, o⟩
    rw [hloop] at hpos
    cases o with
    | none => exact hpos
    | some resp =>
      show 1 ≤ (if resp.status_code ≠ 200
          then (c, some (Except.error (resp.status_code, resp.content)))
          else (c, some (Except.ok (collectFileIds resp.json)))).1
      split <;> exact hpos

/-- C4 counterexample: remote `Content-Length` "100" equals the local size
100 (so the §4.3-style OR-predicate of the claim says: skip), the local file
is not newer than the remote (mtime 0 vs `Last-Modified` 50), and yet
`_allied_mods_download` downloads (returns `true`): its skip test is the
conjunction `remote_size == local_size and time_diff.days < 0`, not the
disjunction. -/
theorem C4_counterexample :
    ("100" = toString (100 : Nat) ∨ (50 : Int) - 0 < 0)
    ∧ allied_mods_download ⟨true, 100, 0⟩ ⟨"100", 50⟩ = true := by
  decide

/-- C4 amended: when the local file exists, `_allied_mods_download` skips the
download iff the remote `Content-Length` string equals `str(local size)` AND
the local mtime is strictly later than the remote `Last-Modified` timestamp
(a conjunction, unlike the §4.3 disjunction). -/
theorem C4_allied_skip_conjunction (loc : AlliedLocal) (head : AlliedHead)
    (h : loc.is_file = true) :
    allied_mods_download loc head = false
      ↔ (head.content_length = toString loc.st_size ∧ head.last_modified < loc.st_mtime) := by
  unfold allied_mods_download
  rw [if_pos h]
  by_cases hc : head.content_length = toString loc.st_size ∧
      head.last_modified - loc.st_mtime < 0
  · rw [if_pos hc]
    constructor
    · intro _
      exact ⟨hc.1, sub_neg.mp hc.2⟩
    · intro _
      rfl
  · rw [if_neg hc]
    constructor
    · intro habs
      exact absurd habs (by simp)
    · intro hdisj
      exact absurd ⟨hdisj.1, sub_neg.mpr hdisj.2⟩ hc

theorem C4_allied_skip_conjunction_witness :
    allied_mods_download ⟨true, 100, 5⟩ ⟨"100", 3⟩ = false
      ↔ ("100" = toString (100 : Nat) ∧ (3 : Int) < 5) :=
  C4_allied_skip_conjunction ⟨true, 100, 5⟩ ⟨"100", 3⟩ rfl

/-- C9: when the install path exists but is not a directory the condition is
only logged — no exception — and the pipeline runs exactly as it would for a
directory (same metadata request counts, same outcome); when the path is
absent the directory is created and nothing is logged. -/
theorem C9_install_path_check (ids : List String)
    (collPost : List (String × FormValue) → Nat → CollHttpResponse)
    (filePost : List (String × FormValue) → Nat → FileHttpResponse)
    (g : String → HttpResponse) (w : String → FileDetails → LocalFile)
    (fs : String → Option LocalFile) (cr fr : Nat) :
    (download_collections PathState.nonDir ids collPost filePost g w fs cr fr).loggedNonDir
        = true
  ∧ (download_collections PathState.nonDir ids collPost filePost g w fs cr fr).pathState
        = PathState.nonDir
  ∧ (download_collections PathState.nonDir ids collPost filePost g w fs cr fr).collRequests
        = (download_collections PathState.dir ids collPost filePost g w fs cr fr).collRequests
  ∧ (download_collections PathState.nonDir ids collPost filePost g w fs cr fr).fileRequests
        = (download_collections PathState.dir ids collPost filePost g w fs cr fr).fileRequests
  ∧ (download_collections PathState.nonDir ids collPost filePost g w fs cr fr).outcome
        = (download_collections PathState.dir ids collPost filePost g w fs cr fr).outcome
  ∧ (download_collections PathState.absent ids collPost filePost g w fs cr fr).pathState
        = PathState.dir
  ∧ (download_collections PathState.absent ids collPost filePost g w fs cr fr).loggedNonDir
        = false :=
  ⟨rfl, rfl, rfl, rfl, rfl, rfl, rfl⟩
